import Mathlib

/-!
Verification of the voice-command chess layer in
`src/voice-recognizer-raspi/src/chess_engine.py`.

The file shallowly embeds the translation/dispatch logic of the repository:
the per-piece voice-command handlers (`PawnMove.run`, `KnightMove.run`,
`BishopMove.run`, `RookMove.run`, `QueenMove.run`, `KingMove.run`,
`Castle.run`, `NewGame.run`), the engine-reply translator (`engine()`), and
the keyword registrations of `make_actor`.

Python strings are modelled as `List Char`; Python slices `s[a:]`, `s[:a]`,
`s[-k:]`, `s[:-k]` become `List.drop` / `List.take` (truncated `Nat`
subtraction reproduces Python's clamping for the slice forms the source
uses).  The chess library (`python-chess`) and the Stockfish process are
external collaborators of the repository; they are modelled as an abstract
`Oracle` providing `push_san`, `board.san(chess.Move.from_uci(..))`, the
engine's best move (already rendered in standard algebraic notation, as
`engine()` does with `comp_move = board.san(bestmove[0])`), and the status
queries `is_check` / `is_checkmate` / `is_game_over`.  A `ValueError` raised
by the library is modelled as `none`; the Python-level `NameError` raised by
the misspelled variable `voice_commnad` (present in the
`len(voice_command) > 12` branch of the knight/bishop/rook/queen/king
handlers) is an exception that the `except ValueError` clause does not
catch, so it is modelled by the `Outcome.crash` constructor.
-/

set_option autoImplicit false

namespace ChessEngine

/-- Python strings, as lists of characters. -/
abbrev Str := List Char

/-- The spoken failure message of every handler's `except ValueError` clause. -/
def invalidMsg : Str := ("Invalid Move. Please Try Again").toList

/-- The eleven-space separator used before the `Check` / `Your Move` suffixes
in `engine()`. -/
def sp11 : Str := ("           ").toList

/-- The four-space separator used inside the disambiguated phrases of
`engine()`. -/
def sp4 : Str := ("    ").toList

/-- `isPrefixOfStr p s` is Python's "does `s` start with `p`" (used to model
the substring operator `in`). -/
def isPrefixOfStr : Str → Str → Bool
  | [], _ => true
  | _ :: _, [] => false
  | a :: as, c :: cs => decide (a = c) && isPrefixOfStr as cs

/-- `containsStr p s` is Python's substring test `p in s`. -/
def containsStr (pat : Str) : Str → Bool
  | [] => isPrefixOfStr pat []
  | c :: rest => isPrefixOfStr pat (c :: rest) || containsStr pat rest

/-- Python `str.lower()` (the commands are ASCII). -/
def lowerStr (s : Str) : Str := s.map Char.toLower

/-- The homophone rewrite applied by every piece handler when `"be"` occurs in
the lowered command:
`voice_command[:-4] + "b" + voice_command[len(voice_command) - 1:]`. -/
def beRewrite (s : Str) : Str :=
  s.take (s.length - 4) ++ 'b' :: s.drop (s.length - 1)

/-- The shared normalisation prologue of every piece handler:
`voice_command = voice_command.lower()` followed by the `"be"` rewrite. -/
def normalizeVC (s : Str) : Str :=
  let v := lowerStr s
  if containsStr ("be").toList v then beRewrite v else v

/-- The external board-state / engine collaborators (`python-chess` board and
the Stockfish subprocess), abstracted.  `B` is the type of board positions.

* `push_san b s` models `board.push_san(s)`: `none` is a `ValueError`
  (illegal, ambiguous or malformed SAN), `some b2` the successfully advanced
  position.
* `uci_to_san b u` models `board.san(chess.Move.from_uci(u))`, `none` being a
  `ValueError`.
* `bestmove b` models the Stockfish reply for position `b` already rendered
  in standard algebraic notation (`comp_move = board.san(bestmove[0])` in
  `engine()`).
* `initial` models `chess.Board()`, the standard starting position.
-/
structure Oracle (B : Type) where
  initial : B
  push_san : B → Str → Option B
  uci_to_san : B → Str → Option Str
  bestmove : B → Str
  is_check : B → Bool
  is_checkmate : B → Bool
  is_game_over : B → Bool

/-- Result of one handler invocation: `ok board outputs` gives the final board
and the list of strings passed to `self.say`, in order; `crash board` is an
uncaught Python exception (the `NameError` of the misspelled `voice_commnad`,
or an exception escaping a handler that has no `try`). -/
inductive Outcome (B : Type) where
  | ok (b : B) (outputs : List Str)
  | crash (b : B)
deriving DecidableEq

/-- The base spoken phrase built by `engine()` from the engine's move
`comp_move` (standard algebraic notation), before the status suffixes:
lines 369-421 of `chess_engine.py`.  The initial `say = ""` is kept when no
branch matches. -/
def baseOf (m : Str) : Str :=
  if m = ("O-O").toList then ("castle king side").toList
  else if m = ("O-O-O").toList then ("castle queen side").toList
  else if m.length = 2 then m
  else if m.length = 3 then
    if m.take 1 = ("N").toList then ("knight to ").toList ++ m.drop 1
    else if m.take 1 = ("B").toList then ("bishop to ").toList ++ m.drop 1
    else if m.take 1 = ("Q").toList then ("queen to ").toList ++ m.drop 1
    else if m.take 1 = ("K").toList then ("king to ").toList ++ m.drop 1
    else if m.take 1 = ("R").toList then ("rook to ").toList ++ m.drop 1
    else []
  else if m.length = 4 then
    if m.contains 'x' then
      if m.take 1 = ("N").toList then ("knight takes ").toList ++ m.drop (m.length - 2)
      else if m.take 1 = ("B").toList then ("bishop takes ").toList ++ m.drop (m.length - 2)
      else if m.take 1 = ("Q").toList then ("queen takes ").toList ++ m.drop (m.length - 2)
      else if m.take 1 = ("K").toList then ("king takes ").toList ++ m.drop (m.length - 2)
      else if m.take 1 = ("R").toList then ("rook takes ").toList ++ m.drop (m.length - 2)
      else m.take 1 ++ sp4 ++ ("Pawn takes ").toList ++ m.drop (m.length - 2)
    else
      if m.take 1 = ("N").toList then
        (m.take (m.length - 2)).drop 1 ++ sp4 ++ ("knight to ").toList ++ m.drop (m.length - 2)
      else if m.take 1 = ("B").toList then
        (m.take (m.length - 2)).drop 1 ++ sp4 ++ ("bishop to ").toList ++ m.drop (m.length - 2)
      else if m.take 1 = ("Q").toList then
        (m.take (m.length - 2)).drop 1 ++ sp4 ++ ("queen to ").toList ++ m.drop (m.length - 2)
      else if m.take 1 = ("K").toList then
        (m.take (m.length - 2)).drop 1 ++ sp4 ++ ("king to ").toList ++ m.drop (m.length - 2)
      else if m.take 1 = ("R").toList then
        (m.take (m.length - 2)).drop 1 ++ sp4 ++ ("rook to ").toList ++ m.drop (m.length - 2)
      else []
  else if m.length = 5 then
    if m.take 1 = ("N").toList then
      (m.take (m.length - 3)).drop 1 ++ sp4 ++ ("knight takes ").toList ++ m.drop (m.length - 2)
    else if m.take 1 = ("B").toList then
      (m.take (m.length - 3)).drop 1 ++ sp4 ++ ("bishop takes ").toList ++ m.drop (m.length - 2)
    else if m.take 1 = ("Q").toList then
      (m.take (m.length - 3)).drop 1 ++ sp4 ++ ("queen takes ").toList ++ m.drop (m.length - 2)
    else if m.take 1 = ("K").toList then
      (m.take (m.length - 3)).drop 1 ++ sp4 ++ ("king takes ").toList ++ m.drop (m.length - 2)
    else if m.take 1 = ("R").toList then
      (m.take (m.length - 3)).drop 1 ++ sp4 ++ ("rook takes ").toList ++ m.drop (m.length - 2)
    else []
  else []

/-- The status-suffix logic at the end of `engine()` (lines 422-428): append
`Check` when the position is a check, always append `Your Move`, then replace
the whole phrase by `Checkmate` or `Draw` when the game has ended. -/
def withStatus (s0 : Str) (chk mate over : Bool) : Str :=
  let s1 := if chk then s0 ++ sp11 ++ ("Check").toList else s0
  let s2 := s1 ++ sp11 ++ ("Your Move").toList
  if mate then ("Checkmate").toList
  else if over then ("Draw").toList
  else s2

variable {B : Type}

/-- The `engine()` function: obtain the best reply (in SAN) for the current
board, push it, and build the spoken phrase.  `none` models the `ValueError`
that `board.push_san(comp_move)` would raise (it propagates out of `engine()`
to the caller). -/
def engineSay (O : Oracle B) (b : B) : Option (B × Str) :=
  let comp_move := O.bestmove b
  match O.push_san b comp_move with
  | none => none
  | some b2 =>
      some (b2, withStatus (baseOf comp_move)
        (O.is_check b2) (O.is_checkmate b2) (O.is_game_over b2))

/-- The shared `try: board.push_san(san); self.say(engine()) except
ValueError: self.say("Invalid Move. Please Try Again")` body of the piece
handlers (one `say` on success). -/
def applyReply (O : Oracle B) (b : B) (san : Str) : Outcome B :=
  match O.push_san b san with
  | none => Outcome.ok b [invalidMsg]
  | some b2 =>
      match engineSay O b2 with
      | none => Outcome.ok b2 [invalidMsg]
      | some (b3, ph) => Outcome.ok b3 [ph]

/-- The same body as `applyReply` but with the extra `self.say("Your Move")`
that only `RookMove.run` performs after `self.say(engine())`. -/
def applyReplyRook (O : Oracle B) (b : B) (san : Str) : Outcome B :=
  match O.push_san b san with
  | none => Outcome.ok b [invalidMsg]
  | some b2 =>
      match engineSay O b2 with
      | none => Outcome.ok b2 [invalidMsg]
      | some (b3, ph) => Outcome.ok b3 [ph, ("Your Move").toList]

/-- Body of `PawnMove.run` after the normalisation prologue.  With
`self.takes` the pushed SAN is
`board.san(chess.Move.from_uci(voice_command[:2] + voice_command[14:]))`,
otherwise `voice_command[8:]` is pushed directly. -/
def pawnMove_core (O : Oracle B) (takes : Bool) (b : B) (vc : Str) : Outcome B :=
  if takes then
    match O.uci_to_san b (vc.take 2 ++ vc.drop 14) with
    | none => Outcome.ok b [invalidMsg]
    | some s => applyReply O b s
  else
    applyReply O b (vc.drop 8)

/-- `PawnMove.run`. -/
def pawnMove_run (O : Oracle B) (takes : Bool) (b : B) (vc : Str) : Outcome B :=
  pawnMove_core O takes b (normalizeVC vc)

/-- Body of `KnightMove.run` after the normalisation prologue.  The
`len(voice_command) > 12` branch evaluates the undefined name `voice_commnad`
and raises a `NameError`, which `except ValueError` does not catch. -/
def knightMove_core (O : Oracle B) (takes : Bool) (b : B) (vc : Str) : Outcome B :=
  if 12 < vc.length then Outcome.crash b
  else applyReply O b
    (if takes then ("Nx").toList ++ vc.drop 13 else ("N").toList ++ vc.drop 10)

/-- `KnightMove.run`. -/
def knightMove_run (O : Oracle B) (takes : Bool) (b : B) (vc : Str) : Outcome B :=
  knightMove_core O takes b (normalizeVC vc)

/-- Body of `BishopMove.run` after the normalisation prologue (same
`voice_commnad` `NameError` in the long branch). -/
def bishopMove_core (O : Oracle B) (takes : Bool) (b : B) (vc : Str) : Outcome B :=
  if 12 < vc.length then Outcome.crash b
  else applyReply O b
    (if takes then ("Bx").toList ++ vc.drop 13 else ("B").toList ++ vc.drop 10)

/-- `BishopMove.run`. -/
def bishopMove_run (O : Oracle B) (takes : Bool) (b : B) (vc : Str) : Outcome B :=
  bishopMove_core O takes b (normalizeVC vc)

/-- Body of `RookMove.run` after the normalisation prologue (same
`voice_commnad` `NameError` in the long branch); on success it additionally
says `"Your Move"` after the engine phrase. -/
def rookMove_core (O : Oracle B) (takes : Bool) (b : B) (vc : Str) : Outcome B :=
  if 12 < vc.length then Outcome.crash b
  else applyReplyRook O b
    (if takes then ("Rx").toList ++ vc.drop 11 else ("R").toList ++ vc.drop 8)

/-- `RookMove.run`. -/
def rookMove_run (O : Oracle B) (takes : Bool) (b : B) (vc : Str) : Outcome B :=
  rookMove_core O takes b (normalizeVC vc)

/-- Body of `QueenMove.run` after the normalisation prologue (same
`voice_commnad` `NameError` in the long branch). -/
def queenMove_core (O : Oracle B) (takes : Bool) (b : B) (vc : Str) : Outcome B :=
  if 12 < vc.length then Outcome.crash b
  else applyReply O b
    (if takes then ("Qx").toList ++ vc.drop 12 else ("Q").toList ++ vc.drop 9)

/-- `QueenMove.run`. -/
def queenMove_run (O : Oracle B) (takes : Bool) (b : B) (vc : Str) : Outcome B :=
  queenMove_core O takes b (normalizeVC vc)

/-- Body of `KingMove.run` after the normalisation prologue (same
`voice_commnad` `NameError` in the long branch). -/
def kingMove_core (O : Oracle B) (takes : Bool) (b : B) (vc : Str) : Outcome B :=
  if 12 < vc.length then Outcome.crash b
  else applyReply O b
    (if takes then ("Kx").toList ++ vc.drop 11 else ("K").toList ++ vc.drop 8)

/-- `KingMove.run`. -/
def kingMove_run (O : Oracle B) (takes : Bool) (b : B) (vc : Str) : Outcome B :=
  kingMove_core O takes b (normalizeVC vc)

/-- `Castle.run`: pushes `O-O` or `O-O-O` inside the same try/except pattern;
no lowering and no homophone rewrite. -/
def castle_run (O : Oracle B) (kingside : Bool) (b : B) (vc : Str) : Outcome B :=
  applyReply O b (if kingside then ("O-O").toList else ("O-O-O").toList)

/-- `NewGame.run`: reset the board to `chess.Board()`; when the command
contains `"black"` immediately run one engine turn (no `try`, so a
`ValueError` escaping `engine()` crashes), otherwise say `"Your Move"`. -/
def newGame_run (O : Oracle B) (b : B) (vc : Str) : Outcome B :=
  let b0 := O.initial
  if containsStr ("black").toList vc then
    match engineSay O b0 with
    | none => Outcome.crash b0
    | some (b2, ph) => Outcome.ok b2 [ph]
  else Outcome.ok b0 [("Your Move").toList]

/-- The chess-related handler objects constructed in `make_actor` (the
volume/shutdown/speech actions are external shell utilities, outside the
translation layer). -/
inductive ChessHandler where
  | newGame
  | pawn (takes : Bool)
  | knight (takes : Bool)
  | bishop (takes : Bool)
  | queen (takes : Bool)
  | king (takes : Bool)
  | rook (takes : Bool)
  | castle (kingside : Bool)
deriving DecidableEq

/-- The keyword → handler registrations of `make_actor`
(lines 452-476 of `chess_engine.py`), in source order. -/
def chessBindings : List (Str × ChessHandler) :=
  [ (("new game").toList, ChessHandler.newGame)
  , (("pawn to").toList, ChessHandler.pawn false)
  , (("knight to").toList, ChessHandler.knight false)
  , (("bishop to").toList, ChessHandler.bishop false)
  , (("queen to").toList, ChessHandler.queen false)
  , (("king to").toList, ChessHandler.king false)
  , (("rook to").toList, ChessHandler.rook false)
  , (("pawn takes").toList, ChessHandler.pawn true)
  , (("knight takes").toList, ChessHandler.knight true)
  , (("bishop takes").toList, ChessHandler.bishop true)
  , (("queen takes").toList, ChessHandler.queen true)
  , (("king takes").toList, ChessHandler.king true)
  , (("rook takes").toList, ChessHandler.rook true)
  , (("pawn cakes").toList, ChessHandler.pawn true)
  , (("knight cakes").toList, ChessHandler.knight true)
  , (("bishop cakes").toList, ChessHandler.bishop true)
  , (("queen cakes").toList, ChessHandler.queen true)
  , (("king cakes").toList, ChessHandler.king true)
  , (("rook cakes").toList, ChessHandler.rook true)
  , (("king castle").toList, ChessHandler.castle true)
  , (("queen castle").toList, ChessHandler.castle false)
  , (("castle king").toList, ChessHandler.castle true)
  , (("castle queen").toList, ChessHandler.castle false)
  ]

/-- Dispatch a recognised utterance to the `run` method of a bound handler. -/
def runChessHandler (O : Oracle B) (h : ChessHandler) (b : B) (vc : Str) : Outcome B :=
  match h with
  | ChessHandler.newGame => newGame_run O b vc
  | ChessHandler.pawn t => pawnMove_run O t b vc
  | ChessHandler.knight t => knightMove_run O t b vc
  | ChessHandler.bishop t => bishopMove_run O t b vc
  | ChessHandler.queen t => queenMove_run O t b vc
  | ChessHandler.king t => kingMove_run O t b vc
  | ChessHandler.rook t => rookMove_run O t b vc
  | ChessHandler.castle k => castle_run O k b vc

/-- Spoken name of each non-pawn piece letter, as hard-coded in the branches
of `engine()` (used to state the translation claims compactly). -/
def pieceNameOf (c : Char) : Str :=
  if c = 'N' then ("knight").toList
  else if c = 'B' then ("bishop").toList
  else if c = 'Q' then ("queen").toList
  else if c = 'K' then ("king").toList
  else if c = 'R' then ("rook").toList
  else []

/-- The SAN letters of the non-pawn pieces. -/
def pieceLetters : List Char := ['N', 'B', 'Q', 'K', 'R']

/-- The chess board files. -/
def fileChars : List Char := ['a', 'b', 'c', 'd', 'e', 'f', 'g', 'h']

/-- The chess board ranks. -/
def rankChars : List Char := ['1', '2', '3', '4', '5', '6', '7', '8']

/-- The outcome of a failed attempt leaves the board untouched: a crash keeps
the pre-attempt board, and an `Invalid Move. Please Try Again` reply is only
ever spoken with the pre-attempt board. -/
def failPreserves (b : B) : Outcome B → Prop
  | Outcome.ok b2 msgs => msgs = [invalidMsg] → b2 = b
  | Outcome.crash b2 => b2 = b

/-- A concrete executable instance of the external collaborators, used to
evaluate the handlers on concrete inputs: a board is the list of SAN strings
pushed onto it (most recent first); pushing any nonempty SAN succeeds, the
engine always answers `e4`, and no status flag is ever set. -/
def toyO : Oracle (List Str) :=
  { initial := []
  , push_san := fun b s => if 1 ≤ s.length then some (s :: b) else none
  , uci_to_san := fun _ u => if u.length = 4 then some u else none
  , bestmove := fun _ => ("e4").toList
  , is_check := fun _ => false
  , is_checkmate := fun _ => false
  , is_game_over := fun _ => false }

/-! ### Helper lemmas -/

theorem toyO_bestmove_ok : ∀ b, (toyO.push_san b (toyO.bestmove b)).isSome := by
  intro b
  simp [toyO]

theorem getLast_yourMove (s : Str) : (s ++ ("Your Move").toList).getLast? = some 'e' := by
  rw [List.getLast?_append]
  rfl

theorem append_yourMove_ne_invalid (s : Str) : s ++ ("Your Move").toList ≠ invalidMsg := by
  intro h
  have h2 := getLast_yourMove s
  rw [h] at h2
  exact absurd h2 (by decide)

theorem withStatus_ne_invalid (s0 : Str) (chk mate over : Bool) :
    withStatus s0 chk mate over ≠ invalidMsg := by
  cases mate <;> cases over <;>
    simp only [withStatus, Bool.false_eq_true, if_false, if_true, ite_false, ite_true] <;>
    first
      | exact append_yourMove_ne_invalid _
      | decide

theorem baseOf_len2 (m : Str) (h : m.length = 2) : baseOf m = m := by
  obtain ⟨a, b, rfl⟩ := List.length_eq_two.mp h
  simp [baseOf]

theorem baseOf_len3 (p a b : Char) (hp : p ∈ pieceLetters) :
    baseOf [p, a, b] = pieceNameOf p ++ (" to ").toList ++ [a, b] := by
  fin_cases hp <;> simp [baseOf, pieceNameOf]

theorem baseOf_len4_capture (p a b : Char) (hp : p ∈ pieceLetters) :
    baseOf [p, 'x', a, b] = pieceNameOf p ++ (" takes ").toList ++ [a, b] := by
  fin_cases hp <;> simp [baseOf, pieceNameOf]

theorem baseOf_len4_pawnCapture (f a b : Char) (hf : f ∉ pieceLetters) :
    baseOf [f, 'x', a, b] = [f] ++ sp4 ++ ("Pawn takes ").toList ++ [a, b] := by
  simp only [pieceLetters, List.mem_cons, List.mem_singleton, not_or] at hf
  obtain ⟨h1, h2, h3, h4, h5⟩ := hf
  simp [baseOf, sp4, h1, h2, h3, h4, h5]

theorem baseOf_len4_plain (p d a b : Char) (hp : p ∈ pieceLetters)
    (hd : d ≠ 'x') (ha : a ≠ 'x') (hb : b ≠ 'x') :
    baseOf [p, d, a, b] = [d] ++ sp4 ++ pieceNameOf p ++ (" to ").toList ++ [a, b] := by
  fin_cases hp <;> simp [baseOf, pieceNameOf, sp4, hd, ha, hb] <;>
    exact ⟨Ne.symm hd, Ne.symm ha, Ne.symm hb⟩

theorem baseOf_len5 (p d c a b : Char) (hp : p ∈ pieceLetters) :
    baseOf [p, d, c, a, b] = [d] ++ sp4 ++ pieceNameOf p ++ (" takes ").toList ++ [a, b] := by
  fin_cases hp <;> simp [baseOf, pieceNameOf, sp4]

theorem take_align (x y : Char) :
    ∀ (pre : Str) (k : Nat) (post : Str), k ≤ pre.length →
      (pre ++ x :: post).take k = (pre ++ y :: post).take k := by
  intro pre
  induction pre with
  | nil =>
    intro k post hk
    simp only [List.length_nil, Nat.le_zero] at hk
    subst hk
    rfl
  | cons a pre ih =>
    intro k post hk
    cases k with
    | zero => rfl
    | succ k =>
      simp only [List.cons_append, List.take_succ_cons]
      rw [ih k post (Nat.le_of_succ_le_succ hk)]

theorem drop_append_gt (x : Char) :
    ∀ (pre : Str) (k : Nat) (post : Str), pre.length < k →
      (pre ++ x :: post).drop k = post.drop (k - pre.length - 1) := by
  intro pre
  induction pre with
  | nil =>
    intro k post hk
    cases k with
    | zero => exact absurd hk (by simp)
    | succ k => simp [List.drop_succ_cons]
  | cons a pre ih =>
    intro k post hk
    simp only [List.length_cons] at hk
    cases k with
    | zero => exact absurd hk (by omega)
    | succ k =>
      simp only [List.cons_append, List.drop_succ_cons]
      rw [ih k post (by omega)]
      have harg : k + 1 - (a :: pre).length - 1 = k - pre.length - 1 := by
        simp only [List.length_cons]
        omega
      rw [harg]

theorem drop_align (x y : Char) (pre : Str) (k : Nat) (post : Str) (h : pre.length < k) :
    (pre ++ x :: post).drop k = (pre ++ y :: post).drop k := by
  rw [drop_append_gt x pre k post h, drop_append_gt y pre k post h]

theorem take_append_gt (x : Char) :
    ∀ (pre : Str) (k : Nat) (post : Str), pre.length < k →
      (pre ++ x :: post).take k = pre ++ x :: post.take (k - pre.length - 1) := by
  intro pre
  induction pre with
  | nil =>
    intro k post hk
    cases k with
    | zero => exact absurd hk (by simp)
    | succ k => simp [List.take_succ_cons]
  | cons a pre ih =>
    intro k post hk
    simp only [List.length_cons] at hk
    cases k with
    | zero => exact absurd hk (by omega)
    | succ k =>
      simp only [List.cons_append, List.take_succ_cons]
      rw [ih k post (by omega)]
      have harg : k + 1 - (a :: pre).length - 1 = k - pre.length - 1 := by
        simp only [List.length_cons]
        omega
      rw [harg]

theorem containsStr_be_align (x y : Char)
    (hx1 : x ≠ 'b') (hx2 : x ≠ 'e') (hy1 : y ≠ 'b') (hy2 : y ≠ 'e') :
    ∀ (pre post : Str),
      containsStr (("be").toList) (pre ++ x :: post)
        = containsStr (("be").toList) (pre ++ y :: post) := by
  intro pre
  induction pre with
  | nil =>
    intro post
    simp only [List.nil_append, containsStr, isPrefixOfStr]
    have dx : decide ('b' = x) = false := decide_eq_false (fun h => hx1 h.symm)
    have dy : decide ('b' = y) = false := decide_eq_false (fun h => hy1 h.symm)
    rw [dx, dy]
  | cons a pre ih =>
    intro post
    simp only [List.cons_append, containsStr, List.append_eq]
    rw [ih post]
    cases pre with
    | nil =>
      simp only [List.nil_append, isPrefixOfStr]
      have dx : decide ('e' = x) = false := decide_eq_false (fun h => hx2 h.symm)
      have dy : decide ('e' = y) = false := decide_eq_false (fun h => hy2 h.symm)
      rw [dx, dy]
    | cons c pre2 =>
      simp only [List.cons_append, isPrefixOfStr]

theorem beRewrite_align (x : Char) (pre post : Str) (hp : 4 ≤ post.length) :
    beRewrite (pre ++ x :: post)
      = pre ++ x :: (post.take (post.length - 4) ++ 'b' :: post.drop (post.length - 1)) := by
  unfold beRewrite
  have hlen : (pre ++ x :: post).length = pre.length + post.length + 1 := by
    simp only [List.length_append, List.length_cons]
    omega
  rw [hlen]
  rw [take_append_gt x pre (pre.length + post.length + 1 - 4) post (by omega)]
  rw [drop_append_gt x pre (pre.length + post.length + 1 - 1) post (by omega)]
  have h1 : pre.length + post.length + 1 - 4 - pre.length - 1 = post.length - 4 := by omega
  have h2 : pre.length + post.length + 1 - 1 - pre.length - 1 = post.length - 1 := by omega
  rw [h1, h2]
  simp only [List.append_assoc, List.cons_append]

theorem normalizeVC_align (x y : Char)
    (hx1 : x ≠ 'b') (hx2 : x ≠ 'e') (hy1 : y ≠ 'b') (hy2 : y ≠ 'e')
    (hlx : Char.toLower x = x) (hly : Char.toLower y = y)
    (pre post : Str) (hp : 4 ≤ post.length) :
    ∃ post2, normalizeVC (pre ++ x :: post) = lowerStr pre ++ x :: post2
           ∧ normalizeVC (pre ++ y :: post) = lowerStr pre ++ y :: post2 := by
  have hLx : lowerStr (pre ++ x :: post) = lowerStr pre ++ x :: lowerStr post := by
    simp [lowerStr, hlx]
  have hLy : lowerStr (pre ++ y :: post) = lowerStr pre ++ y :: lowerStr post := by
    simp [lowerStr, hly]
  have hcond := containsStr_be_align x y hx1 hx2 hy1 hy2 (lowerStr pre) (lowerStr post)
  have hplen : 4 ≤ (lowerStr post).length := by
    simpa [lowerStr] using hp
  unfold normalizeVC
  rw [hLx, hLy]
  cases hc : containsStr (("be").toList) (lowerStr pre ++ y :: lowerStr post) with
  | false =>
    have hcx : containsStr (("be").toList) (lowerStr pre ++ x :: lowerStr post) = false := by
      rw [hcond]
      exact hc
    simp only [hc, hcx, Bool.false_eq_true, if_false, ite_false]
    exact ⟨lowerStr post, rfl, rfl⟩
  | true =>
    have hcx : containsStr (("be").toList) (lowerStr pre ++ x :: lowerStr post) = true := by
      rw [hcond]
      exact hc
    simp only [hc, hcx, if_true, ite_true]
    rw [beRewrite_align x (lowerStr pre) (lowerStr post) hplen,
        beRewrite_align y (lowerStr pre) (lowerStr post) hplen]
    exact ⟨_, rfl, rfl⟩

theorem pawnMove_core_align (O : Oracle B) (t : Bool) (b : B) (P q : Str) (x y : Char)
    (h2 : 2 ≤ P.length) (h8 : P.length < 8) :
    pawnMove_core O t b (P ++ x :: q) = pawnMove_core O t b (P ++ y :: q) := by
  unfold pawnMove_core
  rw [take_align x y P 2 q h2, drop_align x y P 14 q (by omega), drop_align x y P 8 q h8]

theorem knightMove_core_align (O : Oracle B) (t : Bool) (b : B) (P q : Str) (x y : Char)
    (h8 : P.length < 8) :
    knightMove_core O t b (P ++ x :: q) = knightMove_core O t b (P ++ y :: q) := by
  unfold knightMove_core
  have hlen : (P ++ x :: q).length = (P ++ y :: q).length := by simp
  rw [hlen, drop_align x y P 13 q (by omega), drop_align x y P 10 q (by omega)]

theorem bishopMove_core_align (O : Oracle B) (t : Bool) (b : B) (P q : Str) (x y : Char)
    (h8 : P.length < 8) :
    bishopMove_core O t b (P ++ x :: q) = bishopMove_core O t b (P ++ y :: q) := by
  unfold bishopMove_core
  have hlen : (P ++ x :: q).length = (P ++ y :: q).length := by simp
  rw [hlen, drop_align x y P 13 q (by omega), drop_align x y P 10 q (by omega)]

theorem rookMove_core_align (O : Oracle B) (t : Bool) (b : B) (P q : Str) (x y : Char)
    (h8 : P.length < 8) :
    rookMove_core O t b (P ++ x :: q) = rookMove_core O t b (P ++ y :: q) := by
  unfold rookMove_core
  have hlen : (P ++ x :: q).length = (P ++ y :: q).length := by simp
  rw [hlen, drop_align x y P 11 q (by omega), drop_align x y P 8 q h8]

theorem queenMove_core_align (O : Oracle B) (t : Bool) (b : B) (P q : Str) (x y : Char)
    (h8 : P.length < 8) :
    queenMove_core O t b (P ++ x :: q) = queenMove_core O t b (P ++ y :: q) := by
  unfold queenMove_core
  have hlen : (P ++ x :: q).length = (P ++ y :: q).length := by simp
  rw [hlen, drop_align x y P 12 q (by omega), drop_align x y P 9 q (by omega)]

theorem kingMove_core_align (O : Oracle B) (t : Bool) (b : B) (P q : Str) (x y : Char)
    (h8 : P.length < 8) :
    kingMove_core O t b (P ++ x :: q) = kingMove_core O t b (P ++ y :: q) := by
  unfold kingMove_core
  have hlen : (P ++ x :: q).length = (P ++ y :: q).length := by simp
  rw [hlen, drop_align x y P 11 q (by omega), drop_align x y P 8 q h8]

theorem pawn_takes_cakes (O : Oracle B) (b : B) (tail : Str) :
    pawnMove_run O true b (("pawn takes").toList ++ tail)
      = pawnMove_run O true b (("pawn cakes").toList ++ tail) := by
  obtain ⟨post2, hT, hC⟩ :=
    normalizeVC_align 't' 'c' (by decide) (by decide) (by decide) (by decide)
      (by decide) (by decide) (("pawn ").toList) ((("akes").toList ++ tail))
      (by simp)
  calc pawnMove_run O true b (("pawn takes").toList ++ tail)
      = pawnMove_core O true b
          (normalizeVC ((("pawn ").toList) ++ 't' :: ((("akes").toList ++ tail)))) := rfl
    _ = pawnMove_core O true b (lowerStr (("pawn ").toList) ++ 't' :: post2) := by rw [hT]
    _ = pawnMove_core O true b (lowerStr (("pawn ").toList) ++ 'c' :: post2) :=
        pawnMove_core_align O true b _ post2 't' 'c' (by decide) (by decide)
    _ = pawnMove_core O true b
          (normalizeVC ((("pawn ").toList) ++ 'c' :: ((("akes").toList ++ tail)))) := by rw [hC]
    _ = pawnMove_run O true b (("pawn cakes").toList ++ tail) := rfl

theorem knight_takes_cakes (O : Oracle B) (b : B) (tail : Str) :
    knightMove_run O true b (("knight takes").toList ++ tail)
      = knightMove_run O true b (("knight cakes").toList ++ tail) := by
  obtain ⟨post2, hT, hC⟩ :=
    normalizeVC_align 't' 'c' (by decide) (by decide) (by decide) (by decide)
      (by decide) (by decide) (("knight ").toList) ((("akes").toList ++ tail))
      (by simp)
  calc knightMove_run O true b (("knight takes").toList ++ tail)
      = knightMove_core O true b
          (normalizeVC ((("knight ").toList) ++ 't' :: ((("akes").toList ++ tail)))) := rfl
    _ = knightMove_core O true b (lowerStr (("knight ").toList) ++ 't' :: post2) := by rw [hT]
    _ = knightMove_core O true b (lowerStr (("knight ").toList) ++ 'c' :: post2) :=
        knightMove_core_align O true b _ post2 't' 'c' (by decide)
    _ = knightMove_core O true b
          (normalizeVC ((("knight ").toList) ++ 'c' :: ((("akes").toList ++ tail)))) := by rw [hC]
    _ = knightMove_run O true b (("knight cakes").toList ++ tail) := rfl

theorem bishop_takes_cakes (O : Oracle B) (b : B) (tail : Str) :
    bishopMove_run O true b (("bishop takes").toList ++ tail)
      = bishopMove_run O true b (("bishop cakes").toList ++ tail) := by
  obtain ⟨post2, hT, hC⟩ :=
    normalizeVC_align 't' 'c' (by decide) (by decide) (by decide) (by decide)
      (by decide) (by decide) (("bishop ").toList) ((("akes").toList ++ tail))
      (by simp)
  calc bishopMove_run O true b (("bishop takes").toList ++ tail)
      = bishopMove_core O true b
          (normalizeVC ((("bishop ").toList) ++ 't' :: ((("akes").toList ++ tail)))) := rfl
    _ = bishopMove_core O true b (lowerStr (("bishop ").toList) ++ 't' :: post2) := by rw [hT]
    _ = bishopMove_core O true b (lowerStr (("bishop ").toList) ++ 'c' :: post2) :=
        bishopMove_core_align O true b _ post2 't' 'c' (by decide)
    _ = bishopMove_core O true b
          (normalizeVC ((("bishop ").toList) ++ 'c' :: ((("akes").toList ++ tail)))) := by rw [hC]
    _ = bishopMove_run O true b (("bishop cakes").toList ++ tail) := rfl

theorem rook_takes_cakes (O : Oracle B) (b : B) (tail : Str) :
    rookMove_run O true b (("rook takes").toList ++ tail)
      = rookMove_run O true b (("rook cakes").toList ++ tail) := by
  obtain ⟨post2, hT, hC⟩ :=
    normalizeVC_align 't' 'c' (by decide) (by decide) (by decide) (by decide)
      (by decide) (by decide) (("rook ").toList) ((("akes").toList ++ tail))
      (by simp)
  calc rookMove_run O true b (("rook takes").toList ++ tail)
      = rookMove_core O true b
          (normalizeVC ((("rook ").toList) ++ 't' :: ((("akes").toList ++ tail)))) := rfl
    _ = rookMove_core O true b (lowerStr (("rook ").toList) ++ 't' :: post2) := by rw [hT]
    _ = rookMove_core O true b (lowerStr (("rook ").toList) ++ 'c' :: post2) :=
        rookMove_core_align O true b _ post2 't' 'c' (by decide)
    _ = rookMove_core O true b
          (normalizeVC ((("rook ").toList) ++ 'c' :: ((("akes").toList ++ tail)))) := by rw [hC]
    _ = rookMove_run O true b (("rook cakes").toList ++ tail) := rfl

theorem queen_takes_cakes (O : Oracle B) (b : B) (tail : Str) :
    queenMove_run O true b (("queen takes").toList ++ tail)
      = queenMove_run O true b (("queen cakes").toList ++ tail) := by
  obtain ⟨post2, hT, hC⟩ :=
    normalizeVC_align 't' 'c' (by decide) (by decide) (by decide) (by decide)
      (by decide) (by decide) (("queen ").toList) ((("akes").toList ++ tail))
      (by simp)
  calc queenMove_run O true b (("queen takes").toList ++ tail)
      = queenMove_core O true b
          (normalizeVC ((("queen ").toList) ++ 't' :: ((("akes").toList ++ tail)))) := rfl
    _ = queenMove_core O true b (lowerStr (("queen ").toList) ++ 't' :: post2) := by rw [hT]
    _ = queenMove_core O true b (lowerStr (("queen ").toList) ++ 'c' :: post2) :=
        queenMove_core_align O true b _ post2 't' 'c' (by decide)
    _ = queenMove_core O true b
          (normalizeVC ((("queen ").toList) ++ 'c' :: ((("akes").toList ++ tail)))) := by rw [hC]
    _ = queenMove_run O true b (("queen cakes").toList ++ tail) := rfl

theorem king_takes_cakes (O : Oracle B) (b : B) (tail : Str) :
    kingMove_run O true b (("king takes").toList ++ tail)
      = kingMove_run O true b (("king cakes").toList ++ tail) := by
  obtain ⟨post2, hT, hC⟩ :=
    normalizeVC_align 't' 'c' (by decide) (by decide) (by decide) (by decide)
      (by decide) (by decide) (("king ").toList) ((("akes").toList ++ tail))
      (by simp)
  calc kingMove_run O true b (("king takes").toList ++ tail)
      = kingMove_core O true b
          (normalizeVC ((("king ").toList) ++ 't' :: ((("akes").toList ++ tail)))) := rfl
    _ = kingMove_core O true b (lowerStr (("king ").toList) ++ 't' :: post2) := by rw [hT]
    _ = kingMove_core O true b (lowerStr (("king ").toList) ++ 'c' :: post2) :=
        kingMove_core_align O true b _ post2 't' 'c' (by decide)
    _ = kingMove_core O true b
          (normalizeVC ((("king ").toList) ++ 'c' :: ((("akes").toList ++ tail)))) := by rw [hC]
    _ = kingMove_run O true b (("king cakes").toList ++ tail) := rfl

theorem engineSay_some (O : Oracle B) (hE : ∀ c, (O.push_san c (O.bestmove c)).isSome)
    (c : B) : ∃ d ph, engineSay O c = some (d, ph) ∧ ph ≠ invalidMsg := by
  cases hq : O.push_san c (O.bestmove c) with
  | none => exact absurd (hE c) (by simp [hq])
  | some d =>
    refine ⟨d, _, ?_, withStatus_ne_invalid (baseOf (O.bestmove c))
      (O.is_check d) (O.is_checkmate d) (O.is_game_over d)⟩
    unfold engineSay
    simp only [hq]

theorem applyReply_failPreserves (O : Oracle B)
    (hE : ∀ c, (O.push_san c (O.bestmove c)).isSome) (b : B) (san : Str) :
    failPreserves b (applyReply O b san) := by
  unfold applyReply
  cases hp : O.push_san b san with
  | none => exact fun _ => rfl
  | some b2 =>
    obtain ⟨d, ph, hsome, hne⟩ := engineSay_some O hE b2
    simp only [hsome]
    exact fun h => absurd (List.cons_eq_cons.mp h).1 hne

theorem applyReplyRook_failPreserves (O : Oracle B)
    (hE : ∀ c, (O.push_san c (O.bestmove c)).isSome) (b : B) (san : Str) :
    failPreserves b (applyReplyRook O b san) := by
  unfold applyReplyRook
  cases hp : O.push_san b san with
  | none => exact fun _ => rfl
  | some b2 =>
    obtain ⟨d, ph, hsome, hne⟩ := engineSay_some O hE b2
    simp only [hsome]
    intro h
    exact absurd (congrArg List.length h) (by simp)

theorem applyReply_ok_shape (O : Oracle B) (b : B) (san : Str) (b2 : B) (msgs : List Str)
    (h : applyReply O b san = Outcome.ok b2 msgs) :
    msgs = [invalidMsg] ∨ ∃ c d ph, engineSay O c = some (d, ph) ∧ msgs = [ph] := by
  unfold applyReply at h
  cases hp : O.push_san b san with
  | none =>
    simp only [hp] at h
    cases h
    exact Or.inl rfl
  | some c =>
    simp only [hp] at h
    cases hq : engineSay O c with
    | none =>
      simp only [hq] at h
      cases h
      exact Or.inl rfl
    | some p =>
      simp only [hq] at h
      cases h
      exact Or.inr ⟨c, p.1, p.2, by rw [hq], rfl⟩

theorem applyReplyRook_ok_shape (O : Oracle B) (b : B) (san : Str) (b2 : B) (msgs : List Str)
    (h : applyReplyRook O b san = Outcome.ok b2 msgs) :
    msgs = [invalidMsg]
      ∨ ∃ c d ph, engineSay O c = some (d, ph) ∧ msgs = [ph, ("Your Move").toList] := by
  unfold applyReplyRook at h
  cases hp : O.push_san b san with
  | none =>
    simp only [hp] at h
    cases h
    exact Or.inl rfl
  | some c =>
    simp only [hp] at h
    cases hq : engineSay O c with
    | none =>
      simp only [hq] at h
      cases h
      exact Or.inl rfl
    | some p =>
      simp only [hq] at h
      cases h
      exact Or.inr ⟨c, p.1, p.2, by rw [hq], rfl⟩

theorem applyReply_ok_len (O : Oracle B) (b : B) (san : Str) (b2 : B) (msgs : List Str)
    (h : applyReply O b san = Outcome.ok b2 msgs) : msgs.length = 1 := by
  rcases applyReply_ok_shape O b san b2 msgs h with h1 | ⟨c, d, ph, _, h1⟩ <;> subst h1 <;> rfl

theorem toLower_fileChars : ∀ f ∈ fileChars, Char.toLower f = f := by decide

theorem toLower_rankChars : ∀ r ∈ rankChars, Char.toLower r = r := by decide

theorem no_be_knightTo : ∀ f ∈ fileChars, ∀ r ∈ rankChars,
    containsStr ("be").toList (("knight to ").toList ++ [f, r]) = false := by decide

theorem no_be_bishopTo : ∀ f ∈ fileChars, ∀ r ∈ rankChars,
    containsStr ("be").toList (("bishop to ").toList ++ [f, r]) = false := by decide

theorem no_be_queenTo : ∀ f ∈ fileChars, ∀ r ∈ rankChars,
    containsStr ("be").toList (("queen to ").toList ++ [f, r]) = false := by decide

theorem no_be_kingTo : ∀ f ∈ fileChars, ∀ r ∈ rankChars,
    containsStr ("be").toList (("king to ").toList ++ [f, r]) = false := by decide

theorem no_be_rookTo : ∀ f ∈ fileChars, ∀ r ∈ rankChars,
    containsStr ("be").toList (("rook to ").toList ++ [f, r]) = false := by decide

theorem normalizeVC_fixedPhrase (A : Str) (hA : lowerStr A = A)
    (f r : Char) (hf : f ∈ fileChars) (hr : r ∈ rankChars)
    (hbe : containsStr ("be").toList (A ++ [f, r]) = false) :
    normalizeVC (A ++ [f, r]) = A ++ [f, r] := by
  have hlow : lowerStr (A ++ [f, r]) = A ++ [f, r] := by
    simp only [lowerStr, List.map_append] at hA ⊢
    rw [hA]
    rw [show List.map Char.toLower [f, r] = [Char.toLower f, Char.toLower r] from rfl]
    rw [toLower_fileChars f hf, toLower_rankChars r hr]
  simp only [normalizeVC]
  rw [hlow, hbe]
  simp

theorem knight_base_roundtrip (O : Oracle B) (b : B) (f r : Char)
    (hf : f ∈ fileChars) (hr : r ∈ rankChars) :
    knightMove_run O false b (("knight to ").toList ++ [f, r])
      = applyReply O b ('N' :: [f, r]) := by
  unfold knightMove_run
  rw [normalizeVC_fixedPhrase (("knight to ").toList) rfl f r hf hr (no_be_knightTo f hf r hr)]
  unfold knightMove_core
  rw [if_neg (by simp)]
  have hdrop : ((("knight to ").toList ++ [f, r]).drop 10) = [f, r] := by
    rw [show (10 : Nat) = (("knight to ").toList).length from rfl, List.drop_left]
  simp only [Bool.false_eq_true, if_false, ite_false, hdrop]
  rfl

theorem bishop_base_roundtrip (O : Oracle B) (b : B) (f r : Char)
    (hf : f ∈ fileChars) (hr : r ∈ rankChars) :
    bishopMove_run O false b (("bishop to ").toList ++ [f, r])
      = applyReply O b ('B' :: [f, r]) := by
  unfold bishopMove_run
  rw [normalizeVC_fixedPhrase (("bishop to ").toList) rfl f r hf hr (no_be_bishopTo f hf r hr)]
  unfold bishopMove_core
  rw [if_neg (by simp)]
  have hdrop : ((("bishop to ").toList ++ [f, r]).drop 10) = [f, r] := by
    rw [show (10 : Nat) = (("bishop to ").toList).length from rfl, List.drop_left]
  simp only [Bool.false_eq_true, if_false, ite_false, hdrop]
  rfl

theorem queen_base_roundtrip (O : Oracle B) (b : B) (f r : Char)
    (hf : f ∈ fileChars) (hr : r ∈ rankChars) :
    queenMove_run O false b (("queen to ").toList ++ [f, r])
      = applyReply O b ('Q' :: [f, r]) := by
  unfold queenMove_run
  rw [normalizeVC_fixedPhrase (("queen to ").toList) rfl f r hf hr (no_be_queenTo f hf r hr)]
  unfold queenMove_core
  rw [if_neg (by simp)]
  have hdrop : ((("queen to ").toList ++ [f, r]).drop 9) = [f, r] := by
    rw [show (9 : Nat) = (("queen to ").toList).length from rfl, List.drop_left]
  simp only [Bool.false_eq_true, if_false, ite_false, hdrop]
  rfl

theorem king_base_roundtrip (O : Oracle B) (b : B) (f r : Char)
    (hf : f ∈ fileChars) (hr : r ∈ rankChars) :
    kingMove_run O false b (("king to ").toList ++ [f, r])
      = applyReply O b ('K' :: [f, r]) := by
  unfold kingMove_run
  rw [normalizeVC_fixedPhrase (("king to ").toList) rfl f r hf hr (no_be_kingTo f hf r hr)]
  unfold kingMove_core
  rw [if_neg (by simp)]
  have hdrop : ((("king to ").toList ++ [f, r]).drop 8) = [f, r] := by
    rw [show (8 : Nat) = (("king to ").toList).length from rfl, List.drop_left]
  simp only [Bool.false_eq_true, if_false, ite_false, hdrop]
  rfl

theorem rook_base_roundtrip (O : Oracle B) (b : B) (f r : Char)
    (hf : f ∈ fileChars) (hr : r ∈ rankChars) :
    rookMove_run O false b (("rook to ").toList ++ [f, r])
      = applyReplyRook O b ('R' :: [f, r]) := by
  unfold rookMove_run
  rw [normalizeVC_fixedPhrase (("rook to ").toList) rfl f r hf hr (no_be_rookTo f hf r hr)]
  unfold rookMove_core
  rw [if_neg (by simp)]
  have hdrop : ((("rook to ").toList ++ [f, r]).drop 8) = [f, r] := by
    rw [show (8 : Nat) = (("rook to ").toList).length from rfl, List.drop_left]
  simp only [Bool.false_eq_true, if_false, ite_false, hdrop]
  rfl

/-! ### Claim theorems -/

/-- C1: for every move attempt through any piece handler or the castling
handler, on any board position, if the attempt fails (the handler crashes, or
speaks `Invalid Move. Please Try Again`), the board after the attempt equals
the board before it — the board only accumulates successfully applied moves.
(The engine collaborator is assumed to return pushable best moves, per the
spec's Engine Adapter contract.) -/
theorem c1_board_unchanged_on_failed_attempt (O : Oracle B)
    (hE : ∀ c, (O.push_san c (O.bestmove c)).isSome)
    (takes kingside : Bool) (b : B) (vc : Str) :
    failPreserves b (pawnMove_run O takes b vc)
    ∧ failPreserves b (knightMove_run O takes b vc)
    ∧ failPreserves b (bishopMove_run O takes b vc)
    ∧ failPreserves b (rookMove_run O takes b vc)
    ∧ failPreserves b (queenMove_run O takes b vc)
    ∧ failPreserves b (kingMove_run O takes b vc)
    ∧ failPreserves b (castle_run O kingside b vc) := by
  refine ⟨?_, ?_, ?_, ?_, ?_, ?_, ?_⟩
  · unfold pawnMove_run pawnMove_core
    cases takes with
    | true =>
      cases hu : O.uci_to_san b ((normalizeVC vc).take 2 ++ (normalizeVC vc).drop 14) with
      | none => exact fun _ => rfl
      | some s => exact applyReply_failPreserves O hE b s
    | false => exact applyReply_failPreserves O hE b _
  · unfold knightMove_run knightMove_core
    by_cases h12 : 12 < (normalizeVC vc).length
    · rw [if_pos h12]
      exact rfl
    · rw [if_neg h12]
      exact applyReply_failPreserves O hE b _
  · unfold bishopMove_run bishopMove_core
    by_cases h12 : 12 < (normalizeVC vc).length
    · rw [if_pos h12]
      exact rfl
    · rw [if_neg h12]
      exact applyReply_failPreserves O hE b _
  · unfold rookMove_run rookMove_core
    by_cases h12 : 12 < (normalizeVC vc).length
    · rw [if_pos h12]
      exact rfl
    · rw [if_neg h12]
      exact applyReplyRook_failPreserves O hE b _
  · unfold queenMove_run queenMove_core
    by_cases h12 : 12 < (normalizeVC vc).length
    · rw [if_pos h12]
      exact rfl
    · rw [if_neg h12]
      exact applyReply_failPreserves O hE b _
  · unfold kingMove_run kingMove_core
    by_cases h12 : 12 < (normalizeVC vc).length
    · rw [if_pos h12]
      exact rfl
    · rw [if_neg h12]
      exact applyReply_failPreserves O hE b _
  · unfold castle_run
    exact applyReply_failPreserves O hE b _

/-- Witness for C1 at a concrete failing attempt: on the toy oracle, the pawn
handler rejects the square-less command `pawn to` (it pushes the empty SAN,
which fails) and the board is unchanged. -/
theorem c1_witness :
    pawnMove_run toyO false [] (("pawn to").toList) = Outcome.ok [] [invalidMsg]
    ∧ failPreserves ([] : List Str) (pawnMove_run toyO false [] (("pawn to").toList)) :=
  ⟨rfl, (c1_board_unchanged_on_failed_attempt toyO toyO_bestmove_ok false true []
    (("pawn to").toList)).1⟩

/-- C2 (code bug): the fully-specified branch taken when the command length
exceeds 12 — which every non-pawn `takes` phrase reaches — does not follow the
catch-and-report policy: it evaluates the misspelled name `voice_commnad`,
raising a `NameError` that `except ValueError` does not catch, so the session
crashes instead of speaking `Invalid Move. Please Try Again`. -/
theorem c2_long_takes_branch_crashes (O : Oracle B) (b : B) :
    knightMove_run O true b (("knight takes e5").toList) = Outcome.crash b
    ∧ queenMove_run O true b (("queen takes e5").toList) = Outcome.crash b :=
  ⟨rfl, rfl⟩

/-- C3 (code bug): a well-formed, legal non-pawn capture phrase such as
`rook takes e5` does not produce the board obtained by applying `Rxe5`; the
phrase has length 13 > 12, so the handler crashes with the `voice_commnad`
`NameError` and no move is applied, on every oracle and every board. -/
theorem c3_rook_takes_crashes_instead_of_capturing (O : Oracle B) (b : B) :
    rookMove_run O true b (("rook takes e5").toList) = Outcome.crash b := rfl

/-- C4: the translator applies the status suffixes with the claimed
precedence: checkmate gives exactly `Checkmate`; otherwise game-over gives
exactly `Draw`; otherwise a check appends `Check` then `Your Move` to the base
phrase; otherwise only `Your Move` is appended. -/
theorem c4_status_suffix_precedence (O : Oracle B) (b b2 : B) (ph : Str)
    (h : engineSay O b = some (b2, ph)) :
    ph = if O.is_checkmate b2 then ("Checkmate").toList
         else if O.is_game_over b2 then ("Draw").toList
         else if O.is_check b2 then
           baseOf (O.bestmove b) ++ sp11 ++ ("Check").toList ++ sp11 ++ ("Your Move").toList
         else baseOf (O.bestmove b) ++ sp11 ++ ("Your Move").toList := by
  unfold engineSay at h
  cases hp : O.push_san b (O.bestmove b) with
  | none =>
    simp only [hp] at h
    exact Option.noConfusion h
  | some c =>
    simp only [hp, Option.some.injEq, Prod.mk.injEq] at h
    obtain ⟨hb2, hph⟩ := h
    subst hb2
    rw [← hph]
    cases hm : O.is_checkmate c <;> cases ho : O.is_game_over c <;> cases hc : O.is_check c <;>
      simp [withStatus, hm, ho, hc]

/-- Witness for C4 on the toy oracle: the engine reply `e4` from the empty
board is spoken as the base phrase followed by `Your Move`. -/
theorem c4_witness :
    ("e4           Your Move").toList
      = if toyO.is_checkmate [("e4").toList] then ("Checkmate").toList
        else if toyO.is_game_over [("e4").toList] then ("Draw").toList
        else if toyO.is_check [("e4").toList] then
          baseOf (toyO.bestmove []) ++ sp11 ++ ("Check").toList ++ sp11 ++ ("Your Move").toList
        else baseOf (toyO.bestmove []) ++ sp11 ++ ("Your Move").toList :=
  c4_status_suffix_precedence toyO [] [("e4").toList] (("e4           Your Move").toList) rfl

/-- C5: the base phrase of the reply translator is determined by the shape of
the engine's SAN move: `O-O`/`O-O-O` become the castling phrases; a length-2
move is spoken as the bare square; length-3 piece moves as
`<piece> to <square>`; length-4 moves with a capture marker as
`<piece> takes <square>` (pawn captures as `<file> Pawn takes <square>`),
without one as `<disambiguator> <piece> to <square>`; length-5 moves as
`<disambiguator> <piece> takes <square>`. -/
theorem c5_base_phrase_shapes :
    (baseOf (("O-O").toList) = ("castle king side").toList
      ∧ baseOf (("O-O-O").toList) = ("castle queen side").toList)
    ∧ (∀ m : Str, m.length = 2 → baseOf m = m)
    ∧ (∀ p a b : Char, p ∈ pieceLetters →
        baseOf [p, a, b] = pieceNameOf p ++ (" to ").toList ++ [a, b])
    ∧ (∀ p a b : Char, p ∈ pieceLetters →
        baseOf [p, 'x', a, b] = pieceNameOf p ++ (" takes ").toList ++ [a, b])
    ∧ (∀ f a b : Char, f ∉ pieceLetters →
        baseOf [f, 'x', a, b] = [f] ++ sp4 ++ ("Pawn takes ").toList ++ [a, b])
    ∧ (∀ p d a b : Char, p ∈ pieceLetters → d ≠ 'x' → a ≠ 'x' → b ≠ 'x' →
        baseOf [p, d, a, b] = [d] ++ sp4 ++ pieceNameOf p ++ (" to ").toList ++ [a, b])
    ∧ (∀ p d c a b : Char, p ∈ pieceLetters →
        baseOf [p, d, c, a, b] = [d] ++ sp4 ++ pieceNameOf p ++ (" takes ").toList ++ [a, b]) :=
  ⟨⟨rfl, rfl⟩, baseOf_len2, baseOf_len3, baseOf_len4_capture, baseOf_len4_pawnCapture,
    baseOf_len4_plain, baseOf_len5⟩

/-- Witness for C5 at concrete notations of each shape. -/
theorem c5_witness :
    baseOf (("e4").toList) = ("e4").toList
    ∧ baseOf (("Nf3").toList) = ("knight to f3").toList
    ∧ baseOf (("Rxe5").toList) = ("rook takes e5").toList
    ∧ baseOf (("exd5").toList) = ("e    Pawn takes d5").toList
    ∧ baseOf (("Nbd2").toList) = ("b    knight to d2").toList
    ∧ baseOf (("Nbxd2").toList) = ("b    knight takes d2").toList :=
  ⟨c5_base_phrase_shapes.2.1 (("e4").toList) rfl,
   c5_base_phrase_shapes.2.2.1 'N' 'f' '3' (by decide),
   c5_base_phrase_shapes.2.2.2.1 'R' 'e' '5' (by decide),
   c5_base_phrase_shapes.2.2.2.2.1 'e' 'd' '5' (by decide),
   c5_base_phrase_shapes.2.2.2.2.2.1 'N' 'b' 'd' '2' (by decide) (by decide) (by decide)
     (by decide),
   c5_base_phrase_shapes.2.2.2.2.2.2 'N' 'b' 'x' 'd' '2' (by decide)⟩

/-- C6 counterexample: a plain pawn push does not round-trip.  The translator
renders the engine move `e4` as the bare phrase `e4`; feeding that phrase back
through the pawn handler parses `voice_command[8:] = ""`, the empty SAN is
rejected, and the handler reports `Invalid Move. Please Try Again` instead of
a move to e4. -/
theorem c6_counterexample_pawn_push :
    baseOf (("e4").toList) = ("e4").toList
    ∧ pawnMove_run toyO false [] (("e4").toList) = Outcome.ok [] [invalidMsg] :=
  ⟨rfl, rfl⟩

/-- C6 (amended): for unambiguous non-capture piece moves (length-3 SAN), the
base phrase produced by the translator, fed back through the corresponding
piece handler, attempts exactly the original SAN — in particular the same
destination square. -/
theorem c6_piece_move_roundtrip (O : Oracle B) (b : B) (f r : Char)
    (hf : f ∈ fileChars) (hr : r ∈ rankChars) :
    knightMove_run O false b (baseOf ['N', f, r]) = applyReply O b ['N', f, r]
    ∧ bishopMove_run O false b (baseOf ['B', f, r]) = applyReply O b ['B', f, r]
    ∧ queenMove_run O false b (baseOf ['Q', f, r]) = applyReply O b ['Q', f, r]
    ∧ kingMove_run O false b (baseOf ['K', f, r]) = applyReply O b ['K', f, r]
    ∧ rookMove_run O false b (baseOf ['R', f, r]) = applyReplyRook O b ['R', f, r] := by
  refine ⟨?_, ?_, ?_, ?_, ?_⟩
  · rw [baseOf_len3 'N' f r (by decide)]
    exact knight_base_roundtrip O b f r hf hr
  · rw [baseOf_len3 'B' f r (by decide)]
    exact bishop_base_roundtrip O b f r hf hr
  · rw [baseOf_len3 'Q' f r (by decide)]
    exact queen_base_roundtrip O b f r hf hr
  · rw [baseOf_len3 'K' f r (by decide)]
    exact king_base_roundtrip O b f r hf hr
  · rw [baseOf_len3 'R' f r (by decide)]
    exact rook_base_roundtrip O b f r hf hr

/-- Witness for the amended C6 at the engine move `Nf3` on the toy oracle. -/
theorem c6_witness :
    ('f' ∈ fileChars ∧ '3' ∈ rankChars)
    ∧ knightMove_run toyO false [] (baseOf (("Nf3").toList))
        = applyReply toyO [] (("Nf3").toList) :=
  ⟨⟨by decide, by decide⟩,
   (c6_piece_move_roundtrip toyO [] 'f' '3' (by decide) (by decide)).1⟩

/-- C7: for every piece the `cakes` keyword is bound to the same handler
object (same class, capture flag set) as the `takes` keyword, and on every
utterance tail the handler behaves identically on the `takes` and `cakes`
spellings: the two words have equal length and differ only in a character
that no slice and no `be` test can distinguish. -/
theorem c7_cakes_equals_takes (O : Oracle B) (b : B) (tail : Str) :
    (List.lookup (("pawn cakes").toList) chessBindings = some (ChessHandler.pawn true)
      ∧ List.lookup (("pawn takes").toList) chessBindings = some (ChessHandler.pawn true)
      ∧ List.lookup (("knight cakes").toList) chessBindings = some (ChessHandler.knight true)
      ∧ List.lookup (("knight takes").toList) chessBindings = some (ChessHandler.knight true)
      ∧ List.lookup (("bishop cakes").toList) chessBindings = some (ChessHandler.bishop true)
      ∧ List.lookup (("bishop takes").toList) chessBindings = some (ChessHandler.bishop true)
      ∧ List.lookup (("queen cakes").toList) chessBindings = some (ChessHandler.queen true)
      ∧ List.lookup (("queen takes").toList) chessBindings = some (ChessHandler.queen true)
      ∧ List.lookup (("king cakes").toList) chessBindings = some (ChessHandler.king true)
      ∧ List.lookup (("king takes").toList) chessBindings = some (ChessHandler.king true)
      ∧ List.lookup (("rook cakes").toList) chessBindings = some (ChessHandler.rook true)
      ∧ List.lookup (("rook takes").toList) chessBindings = some (ChessHandler.rook true))
    ∧ pawnMove_run O true b (("pawn takes").toList ++ tail)
        = pawnMove_run O true b (("pawn cakes").toList ++ tail)
    ∧ knightMove_run O true b (("knight takes").toList ++ tail)
        = knightMove_run O true b (("knight cakes").toList ++ tail)
    ∧ bishopMove_run O true b (("bishop takes").toList ++ tail)
        = bishopMove_run O true b (("bishop cakes").toList ++ tail)
    ∧ queenMove_run O true b (("queen takes").toList ++ tail)
        = queenMove_run O true b (("queen cakes").toList ++ tail)
    ∧ kingMove_run O true b (("king takes").toList ++ tail)
        = kingMove_run O true b (("king cakes").toList ++ tail)
    ∧ rookMove_run O true b (("rook takes").toList ++ tail)
        = rookMove_run O true b (("rook cakes").toList ++ tail) :=
  ⟨⟨rfl, rfl, rfl, rfl, rfl, rfl, rfl, rfl, rfl, rfl, rfl, rfl⟩,
   pawn_takes_cakes O b tail, knight_takes_cakes O b tail, bishop_takes_cakes O b tail,
   queen_takes_cakes O b tail, king_takes_cakes O b tail, rook_takes_cakes O b tail⟩

/-- C8: `new game` always resets the board to the initial position; when the
command contains `black` it immediately runs exactly one engine turn and
speaks the translated reply; otherwise it speaks `Your Move` and applies no
move. -/
theorem c8_new_game_resets (O : Oracle B) (b : B) (vc : Str) :
    (containsStr ("black").toList vc = false →
      newGame_run O b vc = Outcome.ok O.initial [("Your Move").toList])
    ∧ (containsStr ("black").toList vc = true →
      ∀ b2, O.push_san O.initial (O.bestmove O.initial) = some b2 →
        newGame_run O b vc = Outcome.ok b2
          [withStatus (baseOf (O.bestmove O.initial))
            (O.is_check b2) (O.is_checkmate b2) (O.is_game_over b2)]) := by
  constructor
  · intro hb
    simp only [newGame_run, hb, Bool.false_eq_true, if_false, ite_false]
  · intro hb b2 hpush
    simp only [newGame_run, engineSay, hb, hpush, if_true, ite_true]

/-- Witness for C8 on the toy oracle: `new game` leaves the fresh board and
says `Your Move`; `new game black` applies one engine move and speaks its
translation. -/
theorem c8_witness :
    newGame_run toyO [("x").toList] (("new game").toList)
      = Outcome.ok ([] : List Str) [("Your Move").toList]
    ∧ newGame_run toyO [("x").toList] (("new game black").toList)
      = Outcome.ok [("e4").toList] [withStatus (baseOf (("e4").toList)) false false false] :=
  ⟨(c8_new_game_resets toyO [("x").toList] (("new game").toList)).1 rfl,
   (c8_new_game_resets toyO [("x").toList] (("new game black").toList)).2 rfl
     [("e4").toList] rfl⟩

/-- C9: every piece handler — pawn, knight, bishop, rook, queen and king —
applies the same homophone rewrite: when `be` occurs anywhere in the lowered
command, the handler parses `command[:-4] + "b" + command[-1:]` instead,
regardless of the piece and of where `be` occurred. -/
theorem c9_be_rewrite_in_every_handler (vc : Str)
    (h : containsStr ("be").toList (lowerStr vc) = true) :
    normalizeVC vc = beRewrite (lowerStr vc)
    ∧ ∀ (O : Oracle B) (takes : Bool) (b : B),
        pawnMove_run O takes b vc = pawnMove_core O takes b (beRewrite (lowerStr vc))
        ∧ knightMove_run O takes b vc = knightMove_core O takes b (beRewrite (lowerStr vc))
        ∧ bishopMove_run O takes b vc = bishopMove_core O takes b (beRewrite (lowerStr vc))
        ∧ rookMove_run O takes b vc = rookMove_core O takes b (beRewrite (lowerStr vc))
        ∧ queenMove_run O takes b vc = queenMove_core O takes b (beRewrite (lowerStr vc))
        ∧ kingMove_run O takes b vc = kingMove_core O takes b (beRewrite (lowerStr vc)) := by
  have hn : normalizeVC vc = beRewrite (lowerStr vc) := by
    simp only [normalizeVC, h, if_true, ite_true]
  refine ⟨hn, fun O takes b => ⟨?_, ?_, ?_, ?_, ?_, ?_⟩⟩
  · unfold pawnMove_run
    rw [hn]
  · unfold knightMove_run
    rw [hn]
  · unfold bishopMove_run
    rw [hn]
  · unfold rookMove_run
    rw [hn]
  · unfold queenMove_run
    rw [hn]
  · unfold kingMove_run
    rw [hn]

/-- Witness for C9 at a command containing `be`, on the toy oracle. -/
theorem c9_witness :
    normalizeVC (("queen to be4").toList) = beRewrite (lowerStr (("queen to be4").toList))
    ∧ knightMove_run toyO false [] (("queen to be4").toList)
      = knightMove_core toyO false [] (beRewrite (lowerStr (("queen to be4").toList))) :=
  ⟨(@c9_be_rewrite_in_every_handler (List Str) (("queen to be4").toList) (by decide)).1,
   ((@c9_be_rewrite_in_every_handler (List Str) (("queen to be4").toList) (by decide)).2
     toyO false []).2.1⟩

/-- C10: on success the rook handler speaks two outputs — the translated
engine reply followed by a standalone `Your Move` — while every other piece
handler (and the castling handler) speaks exactly one output on every
non-crashing run. -/
theorem c10_rook_double_say (O : Oracle B) (takes kingside : Bool) (b : B) (vc : Str) :
    (∀ b2 msgs, pawnMove_run O takes b vc = Outcome.ok b2 msgs → msgs.length = 1)
    ∧ (∀ b2 msgs, knightMove_run O takes b vc = Outcome.ok b2 msgs → msgs.length = 1)
    ∧ (∀ b2 msgs, bishopMove_run O takes b vc = Outcome.ok b2 msgs → msgs.length = 1)
    ∧ (∀ b2 msgs, queenMove_run O takes b vc = Outcome.ok b2 msgs → msgs.length = 1)
    ∧ (∀ b2 msgs, kingMove_run O takes b vc = Outcome.ok b2 msgs → msgs.length = 1)
    ∧ (∀ b2 msgs, castle_run O kingside b vc = Outcome.ok b2 msgs → msgs.length = 1)
    ∧ (∀ b2 msgs, rookMove_run O takes b vc = Outcome.ok b2 msgs →
        msgs = [invalidMsg]
        ∨ ∃ c d ph, engineSay O c = some (d, ph) ∧ msgs = [ph, ("Your Move").toList]) := by
  refine ⟨?_, ?_, ?_, ?_, ?_, ?_, ?_⟩
  · intro b2 msgs h
    unfold pawnMove_run pawnMove_core at h
    cases takes with
    | true =>
      cases hu : O.uci_to_san b ((normalizeVC vc).take 2 ++ (normalizeVC vc).drop 14) with
      | none =>
        rw [hu] at h
        cases h
        rfl
      | some s =>
        rw [hu] at h
        exact applyReply_ok_len O b s b2 msgs h
    | false => exact applyReply_ok_len O b _ b2 msgs h
  · intro b2 msgs h
    unfold knightMove_run knightMove_core at h
    by_cases h12 : 12 < (normalizeVC vc).length
    · rw [if_pos h12] at h
      exact Outcome.noConfusion h
    · rw [if_neg h12] at h
      exact applyReply_ok_len O b _ b2 msgs h
  · intro b2 msgs h
    unfold bishopMove_run bishopMove_core at h
    by_cases h12 : 12 < (normalizeVC vc).length
    · rw [if_pos h12] at h
      exact Outcome.noConfusion h
    · rw [if_neg h12] at h
      exact applyReply_ok_len O b _ b2 msgs h
  · intro b2 msgs h
    unfold queenMove_run queenMove_core at h
    by_cases h12 : 12 < (normalizeVC vc).length
    · rw [if_pos h12] at h
      exact Outcome.noConfusion h
    · rw [if_neg h12] at h
      exact applyReply_ok_len O b _ b2 msgs h
  · intro b2 msgs h
    unfold kingMove_run kingMove_core at h
    by_cases h12 : 12 < (normalizeVC vc).length
    · rw [if_pos h12] at h
      exact Outcome.noConfusion h
    · rw [if_neg h12] at h
      exact applyReply_ok_len O b _ b2 msgs h
  · intro b2 msgs h
    unfold castle_run at h
    exact applyReply_ok_len O b _ b2 msgs h
  · intro b2 msgs h
    unfold rookMove_run rookMove_core at h
    by_cases h12 : 12 < (normalizeVC vc).length
    · rw [if_pos h12] at h
      exact Outcome.noConfusion h
    · rw [if_neg h12] at h
      exact applyReplyRook_ok_shape O b _ b2 msgs h

/-- Witness for C10 at a successful rook move on the toy oracle: the outputs
are the engine phrase followed by `Your Move`. -/
theorem c10_witness :
    ([("e4           Your Move").toList, ("Your Move").toList] : List Str) = [invalidMsg]
    ∨ ∃ c d ph, engineSay toyO c = some (d, ph)
        ∧ ([("e4           Your Move").toList, ("Your Move").toList] : List Str)
            = [ph, ("Your Move").toList] :=
  (c10_rook_double_say toyO false false [] (("rook to a3").toList)).2.2.2.2.2.2
    [("e4").toList, ("Ra3").toList]
    [("e4           Your Move").toList, ("Your Move").toList] rfl

end ChessEngine
